import Mathlib

/-!
Verification of `serlo_download_events.py` (Serlo KPI tests, 2019-02).

The Python module downloads the paginated Serlo event history and stores each
event fragment in a LevelDB key/value store under a content hash.  This file
gives a shallow embedding of its core functions:

* `cached_function`  — the `cache` decorator (lines 27-55): a disk-persisted
  TTL cache, modelled as an explicit map from cache-file paths to
  (payload, mtime) pairs together with the current wall-clock time.
* `get_history_page_http` — the HTTP part of `get_history_page` (lines 75-89),
  modelled over the real interface of a `requests.Response` object.
* `locAux` / `get_history_information` — the exponential last-page search
  (lines 92-127).  The unbounded `for … in itertools.count(11)` loop is
  embedded with an explicit probe budget (`fuel`); a `none` result means the
  loop is still running after that many probes.  The trailing
  `raise ValueError` of the Python code sits after an infinite iterator and is
  unreachable, so it has no representation in any terminating run.
* `runAux` / `runScript` — the ingestion loop `run_script` (lines 138-167),
  again fuel-indexed, over a LevelDB store modelled as a key/value map.

External collaborators are modelled at their interfaces: the HTML parse of a
page (PyQuery) becomes a `Page` record holding the result of evaluating
`int(page("div.page-header > h1 > small").text().lstrip("Seite "))` (the
`header` field, an `Except` since that expression can raise) and the list of
serialized children of `#content-layout > ul` (the `fragments` field);
`hashlib.sha1(…).hexdigest()` becomes an arbitrary function
`sha1hex : Bytes → String` that the theorems quantify over.
-/

/-- Opaque byte blob (the `bytes` produced by `lxml.etree.tostring`). -/
abbrev Bytes := List Nat

/-- Python exceptions that the module can raise or catch, by class.
`attributeError` is the class caught by `except AttributeError` in
`run_script`; `httpError` is `requests.HTTPError`; `valueError` is
`ValueError`. -/
inductive PyErr where
  | attributeError (msg : String)
  | httpError (msg : String)
  | valueError (msg : String)
deriving DecidableEq, Repr

/-- Decidable equality for `Except` values (needed to evaluate concrete
pages and fetch outcomes in witnesses). -/
instance {ε α : Type} [DecidableEq ε] [DecidableEq α] :
    DecidableEq (Except ε α) := fun a b =>
  match a, b with
  | Except.ok x, Except.ok y =>
      if h : x = y then Decidable.isTrue (by rw [h])
      else Decidable.isFalse (by intro hc; cases hc; exact h rfl)
  | Except.error x, Except.error y =>
      if h : x = y then Decidable.isTrue (by rw [h])
      else Decidable.isFalse (by intro hc; cases hc; exact h rfl)
  | Except.ok _, Except.error _ => Decidable.isFalse (by intro hc; cases hc)
  | Except.error _, Except.ok _ => Decidable.isFalse (by intro hc; cases hc)

/-- Parsed view of one fetched history page.

`header` is the result of evaluating
`int(page("div.page-header > h1 > small").text().lstrip("Seite "))`
(the page number printed in the page header); the expression raises when the
header element is absent (`.text()` yields `None`, so `.lstrip` raises
`AttributeError`) or non-numeric (`int` raises `ValueError`), hence an
`Except`.  `fragments` are the serialized children of `#content-layout > ul`
(the same `li` nodes that `#content-layout > ul > li` selects). -/
structure Page where
  header : Except PyErr Int
  fragments : List Bytes
deriving DecidableEq, Repr

/-- Outcome of `PyQuery(get_history_page(n))` for a page index `n`:
either a parsed page, or the exception the fetch/construction raised. -/
inductive PageFetch where
  | ok (p : Page)
  | exn (e : PyErr)
deriving DecidableEq, Repr

/-- The constant `TIMEOUT = 60*60*4` (line 17), in seconds. -/
def TIMEOUT : Int := 60 * 60 * 4

/-- The constant `HISTORY_EVENTS_PER_PAGE = 100` (line 20). -/
def HISTORY_EVENTS_PER_PAGE : Nat := 100

/-! ## The `cache` decorator (lines 27-55)

The decorator's backing store (one JSON file per cache path, whose mtime is
the write time) is modelled as a map from cache-file paths to
`(payload, mtime)`; `none` means the file does not exist.  JSON
serialization is assumed to round-trip payloads (the module only caches
strings and a string/int dictionary). -/

/-- Cache backing store: cache-file path ↦ (payload, mtime). -/
abbrev CacheMap (α : Type) := String → Option (α × Nat)

/-- Writing the cache file `k` with payload/mtime `v` (lines 47-50). -/
def updateCache {α : Type} (st : CacheMap α) (k : String) (v : α × Nat) :
    CacheMap α :=
  fun k' => if k' = k then some v else st k'

/-- The `else` branch of `cached_function` (lines 44-52): invoke the wrapped
function; on success write the result to the cache file (its mtime becomes
the current time `now`) and return it; an exception of the wrapped function
propagates before any write happens.  The third component counts invocations
of the wrapped function performed by this call (always 1 here). -/
def freshCall {α : Type} (key : String) (now : Nat) (f : Unit → Except PyErr α)
    (st : CacheMap α) : Except PyErr α × CacheMap α × Nat :=
  match f () with
  | Except.ok r => (Except.ok r, updateCache st key (r, now), 1)
  | Except.error e => (Except.error e, st, 1)

/-- The function `cached_function` (lines 36-52) for a fixed cache key: if the cache file
exists and `time.time() - os.path.getmtime(file) < TIMEOUT`, return its
payload without invoking the wrapped function; otherwise defer to
`freshCall`.  Returns (result, new cache state, number of invocations of the
wrapped function). -/
def cached_function {α : Type} (key : String) (now : Nat)
    (f : Unit → Except PyErr α) (st : CacheMap α) :
    Except PyErr α × CacheMap α × Nat :=
  match st key with
  | some (payload, mtime) =>
      if (now : Int) - (mtime : Int) < TIMEOUT then (Except.ok payload, st, 0)
      else freshCall key now f st
  | none => freshCall key now f st

/-! ## `get_history_page` (lines 75-89)

Modelled over the real interface of `requests.Response`: the object exposes
`status_code`, `reason`, `url` and `text` — it has **no** attribute `status`.
Line 86 reads `req.status` while formatting the intended
`requests.HTTPError` message, so on a non-200 response the attribute access
raises `AttributeError` before the `HTTPError` is ever constructed. -/

/-- The fields a `requests.Response` object actually provides. -/
structure Response where
  status_code : Nat
  reason : String
  url : String
  text : String
deriving DecidableEq, Repr

/-- The attribute access `req.status` (line 86): `requests.Response` has no
attribute `status` (the status code lives in `status_code`), so the access
raises `AttributeError` for every response. -/
def Response.statusAttr (_r : Response) : Except PyErr Int :=
  Except.error (PyErr.attributeError "Response object has no attribute status")

/-- The body of `get_history_page` after the `requests.get` call
(lines 85-89): on a non-200 status the code evaluates
`req.status` (raising `AttributeError`, see `Response.statusAttr`) while
building the message of the intended `requests.HTTPError`; on a 200 status it
returns `req.text`. -/
def get_history_page_http (resp : Response) : Except PyErr String :=
  if resp.status_code ≠ 200 then
    match resp.statusAttr with
    | Except.error e => Except.error e
    | Except.ok s =>
        Except.error (PyErr.httpError
          ("Status " ++ toString s ++ " " ++ resp.reason ++
            " while fetching " ++ resp.url))
  else Except.ok resp.text

/-- The composite `PyQuery(get_history_page(n))` as a whole, given the HTTP responses per
page index and a parse function from raw page text to its parsed view. -/
def fetch_via_http (resps : Nat → Response) (pq : String → Except PyErr Page) :
    Nat → PageFetch :=
  fun n =>
    match get_history_page_http (resps n) with
    | Except.error e => PageFetch.exn e
    | Except.ok txt =>
        match pq txt with
        | Except.error e => PageFetch.exn e
        | Except.ok p => PageFetch.ok p

/-! ## `get_history_information` (lines 92-127) -/

/-- The dictionary returned by `get_history_information` (lines 122-124). -/
structure HistoryInfo where
  last_page_number : Int
  last_page_events : Nat
  events_length : Int
deriving DecidableEq, Repr

/-- One probe loop of `get_history_information` (lines 104-124), starting at
exponent `e` with a budget of `fuel` probes.  Each iteration requests page
`2^e`; an exception from the fetch or the header parse propagates (there is
no `try` here).  If the reported page number is smaller than the requested
one, the snapshot is returned (lines 115-124); otherwise the exponent is
incremented.  The first component is `none` while the loop is still running
after `fuel` probes; the second component lists the page indices requested. -/
def locAux (fetch : Nat → PageFetch) :
    Nat → Nat → Option (Except PyErr HistoryInfo) × List Nat
  | _, 0 => (none, [])
  | e, fuel + 1 =>
    let P := 2 ^ e
    match fetch P with
    | PageFetch.exn err => (some (Except.error err), [P])
    | PageFetch.ok p =>
      match p.header with
      | Except.error err => (some (Except.error err), [P])
      | Except.ok r =>
        if r < (P : Int) then
          (some (Except.ok
            { last_page_number := r,
              last_page_events := p.fragments.length,
              events_length :=
                (r - 1) * (HISTORY_EVENTS_PER_PAGE : Int) +
                  (p.fragments.length : Int) }),
           [P])
        else
          ((locAux fetch (e + 1) fuel).1, P :: (locAux fetch (e + 1) fuel).2)

/-- The function `get_history_information` (lines 92-127): the probe loop started at
exponent 11 (line 104), with a budget of `fuel` probes. -/
def get_history_information (fetch : Nat → PageFetch) (fuel : Nat) :
    Option (Except PyErr HistoryInfo) :=
  (locAux fetch 11 fuel).1

/-- The page indices `get_history_information` requests, in order. -/
def get_history_information_probes (fetch : Nat → PageFetch) (fuel : Nat) :
    List Nat :=
  (locAux fetch 11 fuel).2

/-! ## `run_script` (lines 138-167) -/

/-- The LevelDB store (`events.leveldb.db`): key ↦ stored bytes. -/
abbrev Store := String → Option Bytes

/-- A `batch.put(key, value)` / LevelDB write: overwrite key `k` with `v`. -/
def updateStore (s : Store) (k : String) (v : Bytes) : Store :=
  fun k' => if k' = k then some v else s k'

/-- The store state every run starts from nothing written yet. -/
def emptyStore : Store := fun _ => none

/-- The key `"events-html-" + sha1(event)` (line 152). -/
def eventKey (sha1hex : Bytes → String) (ev : Bytes) : String :=
  "events-html-" ++ sha1hex ev

/-- Lines 148-156: one write batch — `batch.put` for every fragment of the
page, then `batch.write()`.  The net effect on the key/value store is the
sequential overwrite of each fragment's key. -/
def commitPage (sha1hex : Bytes → String) (s : Store) (frags : List Bytes) :
    Store :=
  frags.foldl (fun st ev => updateStore st (eventKey sha1hex ev) ev) s

/-- Result of a `run_script` run: normal completion via `break` (line 165),
an uncaught exception, or still running after the probe budget (the loop
`for page_number in itertools.count(1)` is unbounded).  Each constructor
carries the store as committed so far. -/
inductive RunResult where
  | done (s : Store)
  | exn (e : PyErr) (s : Store)
  | running (s : Store)

/-- Decidable completion test: did the run end via `break`? -/
def RunResult.isDone : RunResult → Bool
  | RunResult.done _ => true
  | _ => false

/-- The store a run result carries. -/
def storeOf : RunResult → Store
  | RunResult.done s => s
  | RunResult.exn _ s => s
  | RunResult.running s => s

/-- The loop body of `run_script` (lines 142-165), from page `n` with `fuel`
remaining iterations.  Per iteration: `PyQuery(get_history_page(n))` inside
`try … except AttributeError: continue` (lines 143-146) — an `AttributeError`
skips to page `n+1`, any other exception propagates; then the page's
fragments are committed as one batch (lines 148-156); then — outside the
`try` — the page header is parsed (lines 161-162): a failure there
propagates, after the batch was already committed; finally
`if number_in_page < page_number: break` (lines 164-165).  The second
component lists the page indices requested. -/
def runAux (sha1hex : Bytes → String) (listing : Nat → PageFetch) :
    Nat → Nat → Store → RunResult × List Nat
  | 0, _, s => (RunResult.running s, [])
  | fuel + 1, n, s =>
    match listing n with
    | PageFetch.exn (PyErr.attributeError _) =>
        ((runAux sha1hex listing fuel (n + 1) s).1,
         n :: (runAux sha1hex listing fuel (n + 1) s).2)
    | PageFetch.exn e => (RunResult.exn e s, [n])
    | PageFetch.ok p =>
      let s' := commitPage sha1hex s p.fragments
      match p.header with
      | Except.error e => (RunResult.exn e s', [n])
      | Except.ok r =>
          if r < (n : Int) then (RunResult.done s', [n])
          else
            ((runAux sha1hex listing fuel (n + 1) s').1,
             n :: (runAux sha1hex listing fuel (n + 1) s').2)

/-- The function `run_script` (lines 138-167): the ingestion loop started at page 1 over
an empty/fresh view of the store. -/
def runScript (sha1hex : Bytes → String) (listing : Nat → PageFetch)
    (fuel : Nat) : RunResult × List Nat :=
  runAux sha1hex listing fuel 1 emptyStore

/-- The fragments `run_script` commits, in commit order (mirrors the batch
writes of `runAux`; the store is not consulted, so the write sequence depends
only on the listing). -/
def ingested (listing : Nat → PageFetch) : Nat → Nat → List Bytes
  | 0, _ => []
  | fuel + 1, n =>
    match listing n with
    | PageFetch.exn (PyErr.attributeError _) => ingested listing fuel (n + 1)
    | PageFetch.exn _ => []
    | PageFetch.ok p =>
      match p.header with
      | Except.error _ => p.fragments
      | Except.ok r =>
          if r < (n : Int) then p.fragments
          else p.fragments ++ ingested listing fuel (n + 1)

/-- Sequential overwrites of a list of key/value pairs (a write batch). -/
def applyW (W : List (String × Bytes)) (s : Store) : Store :=
  W.foldl (fun st kv => updateStore st kv.1 kv.2) s

/-- The last value a write sequence assigns to key `k`, if any. -/
def lookupLast (W : List (String × Bytes)) (k : String) : Option Bytes :=
  match W with
  | [] => none
  | kv :: rest =>
      match lookupLast rest k with
      | some v => some v
      | none => if kv.1 = k then some kv.2 else none

/-! ## Concrete fixtures used by the witnesses -/

/-- A listing whose every page reports exactly the requested index — an
unbounded listing: the overshoot test `number_in_page < page_number` never
fires. -/
def alwaysEq : Nat → PageFetch :=
  fun P => PageFetch.ok { header := Except.ok (P : Int), fragments := [] }

/-- Injective numeric code of a byte blob (Cantor pairing, shifted so that
`cons` never collides with `[]`). -/
def encBytes : Bytes → Nat
  | [] => 0
  | b :: rest => Nat.pair b (encBytes rest) + 1

/-- Unary rendering of a number as a string of `a`s (an injective
`Nat → String`). -/
def natStr (n : Nat) : String :=
  String.mk (List.replicate n 'a')

/-- A concrete injective stand-in for `sha1(...).hexdigest()`, used to
instantiate the hash-function parameter in witnesses. -/
def sha1W : Bytes → String :=
  fun b => natStr (encBytes b)

/-- A 3-page listing honoring the clamp contract: pages 1-2 are full
(2 fragments each here), page 3 has 1 fragment; any request past page 3
returns page 3, which reports index 3. -/
def listing3 : Nat → PageFetch :=
  fun q =>
    if q = 0 then PageFetch.exn (PyErr.valueError "page 0 does not exist")
    else if q ≤ 2 then
      PageFetch.ok { header := Except.ok (q : Int), fragments := [[7], [8]] }
    else PageFetch.ok { header := Except.ok 3, fragments := [[9]] }

/-- A 1-page listing with a duplicated fragment (`[1]` occurs twice on the
page); every request clamps to that page, which reports index 1. -/
def listingC3 : Nat → PageFetch :=
  fun _ => PageFetch.ok { header := Except.ok 1, fragments := [[1], [2], [1]] }

/-- A non-success HTTP response (status 503) as `requests` exposes it. -/
def resp503 : Response :=
  { status_code := 503, reason := "Service Unavailable",
    url := "https://de.serlo.org/event/history?page=2", text := "" }

/-- A success response whose body is the raw page content. -/
def resp200 : Response :=
  { status_code := 200, reason := "OK",
    url := "https://de.serlo.org/event/history?page=1",
    text := "page content" }

/-- HTTP responses of a 3-page listing whose page 2 returns status 503 and
whose other requests succeed (requests past the end return the last page's
document). -/
def resps8 : Nat → Response :=
  fun n =>
    if n = 2 then
      { status_code := 503, reason := "Service Unavailable",
        url := "https://de.serlo.org/event/history?page=2", text := "" }
    else if n = 1 then
      { status_code := 200, reason := "OK",
        url := "https://de.serlo.org/event/history?page=1", text := "p1" }
    else if n = 3 then
      { status_code := 200, reason := "OK",
        url := "https://de.serlo.org/event/history?page=3", text := "p3" }
    else
      { status_code := 200, reason := "OK",
        url := "https://de.serlo.org/event/history?page=n", text := "pLast" }

/-- Parser for the documents of `resps8`: page 1 reports 1, page 3 reports 3,
the clamped document (returned for every index past 3) reports 3. -/
def pq8 : String → Except PyErr Page :=
  fun t =>
    if t = "p1" then Except.ok { header := Except.ok 1, fragments := [[1]] }
    else if t = "p3" then
      Except.ok { header := Except.ok 3, fragments := [[3]] }
    else if t = "pLast" then
      Except.ok { header := Except.ok 3, fragments := [[3]] }
    else Except.error (PyErr.valueError "unparseable document")

/-- A listing whose every page parses but whose header extraction raises
`AttributeError` (the header element is absent, so `.text()` gives `None`
and `.lstrip` raises). -/
def listingHdr : Nat → PageFetch :=
  fun _ => PageFetch.ok
    { header := Except.error
        (PyErr.attributeError "NoneType object has no attribute lstrip"),
      fragments := [[5]] }

/-- A listing whose every fetch/construction raises `AttributeError`. -/
def listingSkip : Nat → PageFetch :=
  fun _ => PageFetch.exn
    (PyErr.attributeError "NoneType object has no attribute lstrip")

/-- An empty cache state over `Nat` payloads. -/
def emptyCacheNat : CacheMap Nat := fun _ => none

/-- A cache state holding payload 9 written at time 3 under key `"k"`. -/
def cacheHitNat : CacheMap Nat :=
  fun k' => if k' = "k" then some (9, 3) else none

/-! # Theorems -/

/-! ## Locator lemmas -/

/-- Each loop iteration of `get_history_information` performs exactly one
page probe, so the probe list is bounded by the fuel. -/
lemma locAux_probes_length_le (fetch : Nat → PageFetch) :
    ∀ fuel e, ((locAux fetch e fuel).2).length ≤ fuel := by
  intro fuel
  induction fuel with
  | zero => intro e; simp [locAux]
  | succ fuel ih =>
    intro e
    simp only [locAux]
    cases hf : fetch (2 ^ e) with
    | exn err => simp
    | ok p =>
      cases hh : p.header with
      | error err => simp [hh]
      | ok r =>
        by_cases hr : r < ((2 : Int) ^ e)
        · simp [hh, hr]
        · simp only [hh]
          have hgoal := ih (e + 1)
          simp [hr]
          omega

/-- Under the clamp contract (pages up to `L` report their own index, pages
past `L` return the fixed last page `lp` reporting `L`), the probe loop
started at exponent `e` returns the snapshot for `L` as soon as the budget
reaches the first overshooting exponent. -/
lemma locAux_finds (fetch : Nat → PageFetch) (L : Nat) (lp : Page)
    (hlp : lp.header = Except.ok (L : Int))
    (Hgt : ∀ P, L < P → fetch P = PageFetch.ok lp)
    (Hle : ∀ P, 1 ≤ P → P ≤ L →
      ∃ p, fetch P = PageFetch.ok p ∧ p.header = Except.ok (P : Int)) :
    ∀ fuel e, L < 2 ^ (e + fuel) →
      (locAux fetch e (fuel + 1)).1 =
        some (Except.ok
          { last_page_number := (L : Int),
            last_page_events := lp.fragments.length,
            events_length := ((L : Int) - 1) * (HISTORY_EVENTS_PER_PAGE : Int)
              + (lp.fragments.length : Int) }) := by
  intro fuel
  induction fuel with
  | zero =>
    intro e hlt
    have hlt' : L < 2 ^ e := by simpa using hlt
    have hf := Hgt (2 ^ e) hlt'
    have hc : (L : Int) < (2 : Int) ^ e := by exact_mod_cast hlt'
    simp [locAux, hf, hlp, hc]
  | succ fuel ih =>
    intro e hlt
    by_cases hcase : L < 2 ^ e
    · have hf := Hgt (2 ^ e) hcase
      have hc : (L : Int) < (2 : Int) ^ e := by exact_mod_cast hcase
      simp [locAux, hf, hlp, hc]
    · push_neg at hcase
      obtain ⟨p, hf, hh⟩ := Hle (2 ^ e) (Nat.two_pow_pos e) hcase
      have hlt2 : L < 2 ^ (e + 1 + fuel) := by
        rw [show e + 1 + fuel = e + (fuel + 1) by omega]
        exact hlt
      have htail := ih (e + 1) hlt2
      rw [locAux]
      simp only [hf, hh]
      rw [if_neg (lt_irrefl _)]
      exact htail

/-- If every existing probe reports an index at least as large as the
requested one, the probe loop never produces a result: after any number of
probes it is still running. -/
lemma locAux_never_returns (fetch : Nat → PageFetch)
    (H : ∀ P, 1 ≤ P → ∃ p r, fetch P = PageFetch.ok p ∧
      p.header = Except.ok r ∧ (P : Int) ≤ r) :
    ∀ fuel e, (locAux fetch e fuel).1 = none := by
  intro fuel
  induction fuel with
  | zero => intro e; rfl
  | succ fuel ih =>
    intro e
    obtain ⟨p, r, hf, hh, hge⟩ := H (2 ^ e) (Nat.two_pow_pos e)
    have hge' : ¬ (r < (2 : Int) ^ e) := by
      push_cast at hge
      omega
    have htail := ih (e + 1)
    simp [locAux, hf, hh, hge', htail]

/-- Every page index the probe loop requests is a power of two whose
exponent is at least the starting exponent. -/
lemma locAux_probes_pow2 (fetch : Nat → PageFetch) :
    ∀ fuel e0 q, q ∈ (locAux fetch e0 fuel).2 → ∃ e, e0 ≤ e ∧ q = 2 ^ e := by
  intro fuel
  induction fuel with
  | zero => intro e0 q hq; simp [locAux] at hq
  | succ fuel ih =>
    intro e0 q hq
    simp only [locAux] at hq
    cases hf : fetch (2 ^ e0) with
    | exn err =>
      rw [hf] at hq
      simp at hq
      exact ⟨e0, le_refl e0, hq⟩
    | ok p =>
      rw [hf] at hq
      cases hh : p.header with
      | error err =>
        simp [hh] at hq
        exact ⟨e0, le_refl e0, hq⟩
      | ok r =>
        by_cases hr : r < ((2 : Int) ^ e0)
        · simp [hh, hr] at hq
          exact ⟨e0, le_refl e0, hq⟩
        · simp [hh, hr] at hq
          rcases hq with hq | hq
          · exact ⟨e0, le_refl e0, hq⟩
          · obtain ⟨e, he, hqe⟩ := ih (e0 + 1) q hq
            exact ⟨e, by omega, hqe⟩

/-- With at least one probe of budget, the probe list starts with the page
of the starting exponent. -/
lemma locAux_probes_cons (fetch : Nat → PageFetch) (fuel e : Nat) :
    ∃ t, (locAux fetch e (fuel + 1)).2 = 2 ^ e :: t := by
  cases hf : fetch (2 ^ e) with
  | exn err => exact ⟨[], by simp [locAux, hf]⟩
  | ok p =>
    cases hh : p.header with
    | error err => exact ⟨[], by simp [locAux, hf, hh]⟩
    | ok r =>
      by_cases hr : r < ((2 : Int) ^ e)
      · exact ⟨[], by simp [locAux, hf, hh, hr]⟩
      · exact ⟨(locAux fetch (e + 1) fuel).2, by simp [locAux, hf, hh, hr]⟩

/-- C1: for every listing with true last page `L ≥ 1` honoring the clamp
contract (a request past `L` returns the last existing page, which reports
index `L`; a request of `P ≤ L` returns a page reporting index `P`),
`get_history_information` returns the snapshot with
`last_page_number = L`, `last_page_events` the number of fragments on the
last page, and `events_length = (L - 1) * 100 + last_page_events`, within a
probe budget of `Nat.log 2 L + 2` — each loop iteration is one page probe,
so the number of probes is O(log L). -/
theorem c1_locator_correct (L : Nat) (_hL : 1 ≤ L) (fetch : Nat → PageFetch)
    (lp : Page) (hlp : lp.header = Except.ok (L : Int))
    (_hlast : fetch L = PageFetch.ok lp)
    (Hgt : ∀ P, L < P → fetch P = PageFetch.ok lp)
    (Hle : ∀ P, 1 ≤ P → P ≤ L →
      ∃ p, fetch P = PageFetch.ok p ∧ p.header = Except.ok (P : Int)) :
    get_history_information fetch (Nat.log 2 L + 2) =
      some (Except.ok
        { last_page_number := (L : Int),
          last_page_events := lp.fragments.length,
          events_length := ((L : Int) - 1) * (HISTORY_EVENTS_PER_PAGE : Int)
            + (lp.fragments.length : Int) })
    ∧ (get_history_information_probes fetch (Nat.log 2 L + 2)).length ≤
        Nat.log 2 L + 2 := by
  constructor
  · have h1 : L < 2 ^ (Nat.log 2 L + 1) :=
      Nat.lt_pow_succ_log_self (by norm_num) L
    have h2 : L < 2 ^ (11 + (Nat.log 2 L + 1)) :=
      lt_of_lt_of_le h1 (Nat.pow_le_pow_right (by norm_num) (by omega))
    exact locAux_finds fetch L lp hlp Hgt Hle (Nat.log 2 L + 1) 11 h2
  · exact locAux_probes_length_le fetch (Nat.log 2 L + 2) 11

/-- Witness for C1 at the 3-page listing `listing3` (last page 3 with one
fragment): the locator returns `{3, 1, 202}` within `Nat.log 2 3 + 2 = 3`
probes. -/
theorem c1_locator_correct_witness :
    get_history_information listing3 (Nat.log 2 3 + 2) =
      some (Except.ok
        { last_page_number := ((3 : Nat) : Int),
          last_page_events := 1,
          events_length := (((3 : Nat) : Int) - 1) *
            (HISTORY_EVENTS_PER_PAGE : Int) + ((1 : Nat) : Int) })
    ∧ (get_history_information_probes listing3 (Nat.log 2 3 + 2)).length ≤
        Nat.log 2 3 + 2 :=
  c1_locator_correct 3 (by norm_num) listing3
    { header := Except.ok 3, fragments := [[9]] } rfl rfl
    (by intro P hP
        simp only [listing3]
        rw [if_neg (by omega), if_neg (by omega)])
    (by intro P h1 h2
        interval_cases P <;> exact ⟨_, rfl, rfl⟩)

/-- C5 (amended): `get_history_information` imposes no exponent ceiling.  If
no probe ever observes an overshoot (every probed page reports an index at
least as large as the requested one), the search neither returns a snapshot
nor raises any error — for every probe budget it is still running; in
particular no `ListingUnboundedError`-like failure exists in the code (the
trailing `ValueError` sits after the infinite `itertools.count(11)` loop and
is unreachable). -/
theorem c5_no_ceiling_diverges (fetch : Nat → PageFetch)
    (H : ∀ P, 1 ≤ P → ∃ p r, fetch P = PageFetch.ok p ∧
      p.header = Except.ok r ∧ (P : Int) ≤ r) :
    ∀ fuel, get_history_information fetch fuel = none :=
  fun fuel => locAux_never_returns fetch H fuel 11

/-- Witness for C5 at the unbounded listing `alwaysEq`: after 50 probes
(exponents 11..60) the search has produced nothing. -/
theorem c5_no_ceiling_diverges_witness :
    get_history_information alwaysEq 50 = none :=
  c5_no_ceiling_diverges alwaysEq
    (fun P _hP => ⟨_, (P : Int), rfl, rfl, le_refl _⟩) 50

/-- C5 counterexample: on the unbounded listing `alwaysEq` (every page
reports exactly the requested index, so no overshoot ever occurs),
`get_history_information` never terminates with any result — in particular
it never fails with a `ListingUnboundedError`: no probe budget makes it
return or raise.  The claimed exponent ceiling does not exist in the code. -/
theorem c5_unbounded_error_cex :
    ¬ ∃ fuel res, get_history_information alwaysEq fuel = some res := by
  rintro ⟨fuel, res, h⟩
  have hn : get_history_information alwaysEq fuel = none :=
    locAux_never_returns alwaysEq
      (fun P _hP => ⟨_, (P : Int), rfl, rfl, le_refl _⟩) fuel 11
  rw [hn] at h
  exact Option.noConfusion h

/-- C9: `get_history_information` only ever requests page indices of the
form `2^e` with `e ≥ 11`; its first probe is always page `2048 = 2^11`, and
every requested index is at least 2048, regardless of the listing. -/
theorem c9_probe_indices (fetch : Nat → PageFetch) (fuel : Nat) :
    (∀ q ∈ get_history_information_probes fetch fuel, ∃ e, 11 ≤ e ∧ q = 2 ^ e)
    ∧ (0 < fuel →
        (get_history_information_probes fetch fuel).head? = some 2048)
    ∧ (∀ q ∈ get_history_information_probes fetch fuel, 2048 ≤ q) := by
  refine ⟨fun q hq => locAux_probes_pow2 fetch fuel 11 q hq, ?_, ?_⟩
  · intro hfuel
    cases fuel with
    | zero => omega
    | succ fuel =>
      obtain ⟨t, ht⟩ := locAux_probes_cons fetch fuel 11
      show ((locAux fetch 11 (fuel + 1)).2).head? = some 2048
      rw [ht]
      norm_num
  · intro q hq
    obtain ⟨e, he, rfl⟩ := locAux_probes_pow2 fetch fuel 11 q hq
    calc 2048 = 2 ^ 11 := by norm_num
    _ ≤ 2 ^ e := Nat.pow_le_pow_right (by norm_num) he

/-- Witness for C9 at the unbounded listing `alwaysEq` with a 2-probe
budget: the first probe is page 2048 and the second requested page, 4096,
is `2^e` for some `e ≥ 11`. -/
theorem c9_probe_indices_witness :
    (get_history_information_probes alwaysEq 2).head? = some 2048
    ∧ (∃ e, 11 ≤ e ∧ 4096 = 2 ^ e) :=
  ⟨(c9_probe_indices alwaysEq 2).2.1 (by norm_num),
   (c9_probe_indices alwaysEq 2).1 4096 (by decide)⟩

/-! ## Ingestion-loop lemmas -/

/-- Pages are requested in increasing order: every page index requested by
the loop started at page `m` is at least `m`. -/
lemma runAux_mem_ge (sha1hex : Bytes → String) (listing : Nat → PageFetch) :
    ∀ fuel m s q, q ∈ (runAux sha1hex listing fuel m s).2 → m ≤ q := by
  intro fuel
  induction fuel with
  | zero => intro m s q hq; simp [runAux] at hq
  | succ fuel ih =>
    intro m s q hq
    simp only [runAux] at hq
    cases hf : listing m with
    | exn e =>
      rw [hf] at hq
      cases e with
      | attributeError msg =>
        simp at hq
        rcases hq with hq | hq
        · omega
        · have := ih (m + 1) s q hq
          omega
      | httpError msg => simp at hq; omega
      | valueError msg => simp at hq; omega
    | ok p =>
      rw [hf] at hq
      cases hh : p.header with
      | error err =>
        simp [hh] at hq
        omega
      | ok r =>
        by_cases hr : r < (m : Int)
        · simp [hh, hr] at hq
          omega
        · simp [hh, hr] at hq
          rcases hq with hq | hq
          · omega
          · have := ih (m + 1) _ q hq
            omega

/-- If page `n` halts the loop (it parses, its header reports `r < n`),
then any run that reaches page `n` requests no page index above `n`. -/
lemma runAux_halted_bound (sha1hex : Bytes → String)
    (listing : Nat → PageFetch) (n : Nat) (p : Page) (r : Int)
    (h1 : listing n = PageFetch.ok p) (h2 : p.header = Except.ok r)
    (h3 : r < (n : Int)) :
    ∀ fuel m s, n ∈ (runAux sha1hex listing fuel m s).2 →
      ∀ q ∈ (runAux sha1hex listing fuel m s).2, q ≤ n := by
  intro fuel
  induction fuel with
  | zero => intro m s hn q hq; simp [runAux] at hq
  | succ fuel ih =>
    intro m s hn q hq
    by_cases hmn : m = n
    · subst hmn
      simp only [runAux, h1, h2, if_pos h3] at hq
      simp at hq
      omega
    · simp only [runAux] at hn hq
      cases hf : listing m with
      | exn e =>
        rw [hf] at hn hq
        cases e with
        | attributeError msg =>
          simp at hn hq
          rcases hn with hn | hn
          · exact absurd hn.symm hmn
          · rcases hq with hq | hq
            · have := runAux_mem_ge sha1hex listing fuel (m + 1) s n hn
              omega
            · exact ih (m + 1) s hn q hq
        | httpError msg =>
          simp at hn
          exact absurd hn.symm hmn
        | valueError msg =>
          simp at hn
          exact absurd hn.symm hmn
      | ok p' =>
        rw [hf] at hn hq
        cases hh : p'.header with
        | error err =>
          simp [hh] at hn
          exact absurd hn.symm hmn
        | ok r' =>
          by_cases hr : r' < (m : Int)
          · simp [hh, hr] at hn
            exact absurd hn.symm hmn
          · simp [hh, hr] at hn hq
            rcases hn with hn | hn
            · exact absurd hn.symm hmn
            · rcases hq with hq | hq
              · have := runAux_mem_ge sha1hex listing fuel (m + 1) _ n hn
                omega
              · exact ih (m + 1) _ hn q hq

/-- C2: for every page `n` processed by `run_script`, if the page parses and
its reported index `r` is strictly less than `n`, the run halts right after
committing that page's fragment batch (result `done`, requests exactly
`[n]` from that point on), and any run from page 1 that reaches page `n`
never requests a page index above `n`; if `r ≥ n`, the run advances to page
`n + 1` after committing the batch. -/
theorem c2_completion_check (sha1hex : Bytes → String)
    (listing : Nat → PageFetch) (s s0 : Store) (n fuel fuelR : Nat)
    (p : Page) (r : Int)
    (h1 : listing n = PageFetch.ok p) (h2 : p.header = Except.ok r) :
    (r < (n : Int) →
      runAux sha1hex listing (fuel + 1) n s
        = (RunResult.done (commitPage sha1hex s p.fragments), [n]))
    ∧ (r < (n : Int) → n ∈ (runAux sha1hex listing fuelR 1 s0).2 →
        ∀ q ∈ (runAux sha1hex listing fuelR 1 s0).2, q ≤ n)
    ∧ ((n : Int) ≤ r →
      runAux sha1hex listing (fuel + 1) n s
        = ((runAux sha1hex listing fuel (n + 1)
              (commitPage sha1hex s p.fragments)).1,
           n :: (runAux sha1hex listing fuel (n + 1)
              (commitPage sha1hex s p.fragments)).2)) := by
  refine ⟨?_, ?_, ?_⟩
  · intro h3
    simp only [runAux, h1, h2, if_pos h3]
  · intro h3 hmem
    exact runAux_halted_bound sha1hex listing n p r h1 h2 h3 fuelR 1 s0 hmem
  · intro h3
    simp only [runAux, h1, h2, if_neg (not_lt.mpr h3)]

/-- Witness for C2 at the 3-page listing `listing3`: page 4 (clamped,
reporting 3) halts the run right after its batch commit; the run from page 1
requests only pages `≤ 4`; page 3 (reporting 3) advances to page 4. -/
theorem c2_completion_check_witness :
    (runAux sha1W listing3 1 4 emptyStore
      = (RunResult.done (commitPage sha1W emptyStore [[9]]), [4]))
    ∧ (∀ q ∈ (runAux sha1W listing3 9 1 emptyStore).2, q ≤ 4)
    ∧ (runAux sha1W listing3 1 3 emptyStore
      = ((runAux sha1W listing3 0 4 (commitPage sha1W emptyStore [[9]])).1,
         3 :: (runAux sha1W listing3 0 4
            (commitPage sha1W emptyStore [[9]])).2)) :=
  ⟨(c2_completion_check sha1W listing3 emptyStore emptyStore 4 0 9
      { header := Except.ok 3, fragments := [[9]] } 3 rfl rfl).1
      (by norm_num),
   (c2_completion_check sha1W listing3 emptyStore emptyStore 4 0 9
      { header := Except.ok 3, fragments := [[9]] } 3 rfl rfl).2.1
      (by norm_num) (by decide),
   (c2_completion_check sha1W listing3 emptyStore emptyStore 3 0 9
      { header := Except.ok 3, fragments := [[9]] } 3 rfl rfl).2.2
      (by norm_num)⟩

/-- C10: the `try/except AttributeError` of `run_script` covers only
fetching and constructing the page object.  If the header extraction for
page `n` fails (even with the very `AttributeError` class the `try` would
catch), the exception propagates out of the run — and only after page `n`'s
fragment batch has already been committed to the store.  By contrast, the
same exception raised while fetching/constructing page `n` is caught and the
run skips to page `n + 1` without committing anything. -/
theorem c10_header_failure_after_commit (sha1hex : Bytes → String)
    (listing listing2 : Nat → PageFetch) (s : Store) (n fuel : Nat)
    (p : Page) (msg : String) :
    (listing n = PageFetch.ok p →
      p.header = Except.error (PyErr.attributeError msg) →
      runAux sha1hex listing (fuel + 1) n s
        = (RunResult.exn (PyErr.attributeError msg)
            (commitPage sha1hex s p.fragments), [n]))
    ∧ (listing2 n = PageFetch.exn (PyErr.attributeError msg) →
      runAux sha1hex listing2 (fuel + 1) n s
        = ((runAux sha1hex listing2 fuel (n + 1) s).1,
           n :: (runAux sha1hex listing2 fuel (n + 1) s).2)) := by
  constructor
  · intro h1 h2
    simp only [runAux, h1, h2]
  · intro h1
    simp only [runAux, h1]

/-- Witness for C10: on `listingHdr` (header extraction raises
`AttributeError`) the run aborts with that error carrying the committed
batch; on `listingSkip` (fetch raises `AttributeError`) the run skips
page 4. -/
theorem c10_header_failure_after_commit_witness :
    (runAux sha1W listingHdr 1 4 emptyStore
      = (RunResult.exn
          (PyErr.attributeError "NoneType object has no attribute lstrip")
          (commitPage sha1W emptyStore [[5]]), [4]))
    ∧ (runAux sha1W listingSkip 1 4 emptyStore
      = ((runAux sha1W listingSkip 0 5 emptyStore).1,
         4 :: (runAux sha1W listingSkip 0 5 emptyStore).2)) :=
  ⟨(c10_header_failure_after_commit sha1W listingHdr listingSkip emptyStore 4 0
      { header := Except.error
          (PyErr.attributeError "NoneType object has no attribute lstrip"),
        fragments := [[5]] }
      "NoneType object has no attribute lstrip").1 rfl rfl,
   (c10_header_failure_after_commit sha1W listingHdr listingSkip emptyStore 4 0
      { header := Except.error
          (PyErr.attributeError "NoneType object has no attribute lstrip"),
        fragments := [[5]] }
      "NoneType object has no attribute lstrip").2 rfl⟩

/-- C7 (code bug): on a non-200 response, `get_history_page` attempts to
raise `requests.HTTPError("Status '%s %s' while fetching '%s'" %
(req.status, req.reason, req.url))`, but `requests.Response` has no
attribute `status` (the code lives in `status_code`), so evaluating the
format arguments raises a bare `AttributeError` carrying neither status nor
reason nor URL; on a 200 response the raw page text is returned. -/
theorem c7_non200_raises_attribute_error :
    get_history_page_http resp503
      = Except.error
          (PyErr.attributeError "Response object has no attribute status")
    ∧ get_history_page_http resp200 = Except.ok "page content" :=
  ⟨rfl, rfl⟩

/-- C8 (code bug): in a 3-page listing whose page-2 HTTP response has
status 503, the fetch of page 2 fails with `AttributeError` (the
`req.status` slip, see `Response.statusAttr`), which `run_script`'s
`except AttributeError` catches: the transport failure does **not**
propagate — the run skips page 2, continues with pages 3 and 4, and
completes normally (`done`, pages requested `[1, 2, 3, 4]`). -/
theorem c8_transport_error_swallowed :
    get_history_page_http (resps8 2)
      = Except.error
          (PyErr.attributeError "Response object has no attribute status")
    ∧ RunResult.isDone
        (runScript sha1W (fetch_via_http resps8 pq8) 10).1 = true
    ∧ (runScript sha1W (fetch_via_http resps8 pq8) 10).2 = [1, 2, 3, 4] := by
  refine ⟨rfl, ?_, ?_⟩ <;> decide

/-! ## Store lemmas for deduplication and idempotence -/

/-- A batch commit is the sequential application of the page's
(key, fragment) write list. -/
lemma commitPage_eq_applyW (sha1hex : Bytes → String) (s : Store)
    (frags : List Bytes) :
    commitPage sha1hex s frags
      = applyW (frags.map (fun ev => (eventKey sha1hex ev, ev))) s := by
  simp [commitPage, applyW, List.foldl_map]

/-- Write sequences compose by concatenation. -/
lemma applyW_append (W1 W2 : List (String × Bytes)) (s : Store) :
    applyW (W1 ++ W2) s = applyW W2 (applyW W1 s) := by
  simp [applyW, List.foldl_append]

/-- A key no write in the sequence touches keeps its prior value. -/
lemma applyW_lookupLast_none :
    ∀ (W : List (String × Bytes)) (s : Store) (k : String),
      lookupLast W k = none → applyW W s k = s k := by
  intro W
  induction W with
  | nil => intro s k _; rfl
  | cons kv W ih =>
    intro s k hl
    have hW : lookupLast W k = none := by
      simp only [lookupLast] at hl
      cases hW : lookupLast W k with
      | some v => rw [hW] at hl; exact Option.noConfusion hl
      | none => rfl
    have hk : kv.1 ≠ k := by
      simp only [lookupLast, hW] at hl
      intro hkk
      rw [if_pos hkk] at hl
      exact Option.noConfusion hl
    show applyW W (updateStore s kv.1 kv.2) k = s k
    rw [ih (updateStore s kv.1 kv.2) k hW]
    simp only [updateStore]
    rw [if_neg (fun hkk => hk hkk.symm)]

/-- A key some write touches ends up holding the last written value. -/
lemma applyW_lookupLast_some :
    ∀ (W : List (String × Bytes)) (s : Store) (k : String) (v : Bytes),
      lookupLast W k = some v → applyW W s k = some v := by
  intro W
  induction W with
  | nil => intro s k v h; exact Option.noConfusion h
  | cons kv W ih =>
    intro s k v hl
    show applyW W (updateStore s kv.1 kv.2) k = some v
    simp only [lookupLast] at hl
    cases hW : lookupLast W k with
    | some v' =>
      rw [hW] at hl
      have hv := Option.some.inj hl
      subst hv
      exact ih _ k v' hW
    | none =>
      rw [hW] at hl
      by_cases hk : kv.1 = k
      · rw [if_pos hk] at hl
        have hv := Option.some.inj hl
        rw [applyW_lookupLast_none W _ k hW]
        simp only [updateStore]
        rw [if_pos hk.symm, hv]
      · rw [if_neg hk] at hl
        exact Option.noConfusion hl

/-- Replaying the same write sequence on top of its own result changes
nothing (pointwise). -/
lemma applyW_idem (W : List (String × Bytes)) (s : Store) (k : String) :
    applyW W (applyW W s) k = applyW W s k := by
  cases hW : lookupLast W k with
  | some v =>
    rw [applyW_lookupLast_some W _ k v hW, applyW_lookupLast_some W s k v hW]
  | none =>
    rw [applyW_lookupLast_none W _ k hW]

/-- The store a run leaves behind is exactly the ingested write sequence
applied to the starting store; the write sequence depends only on the
listing, not on the store. -/
lemma storeOf_runAux (sha1hex : Bytes → String) (listing : Nat → PageFetch) :
    ∀ fuel n s, storeOf (runAux sha1hex listing fuel n s).1
      = applyW ((ingested listing fuel n).map
          (fun ev => (eventKey sha1hex ev, ev))) s := by
  intro fuel
  induction fuel with
  | zero => intro n s; simp [runAux, ingested, applyW, storeOf]
  | succ fuel ih =>
    intro n s
    simp only [runAux, ingested]
    cases hf : listing n with
    | exn e =>
      cases e with
      | attributeError msg => simpa using ih (n + 1) s
      | httpError msg => simp [storeOf, applyW]
      | valueError msg => simp [storeOf, applyW]
    | ok p =>
      cases hh : p.header with
      | error err =>
        simp [hh, storeOf, commitPage_eq_applyW]
      | ok r =>
        by_cases hr : r < (n : Int)
        · simp [hh, hr, storeOf, commitPage_eq_applyW]
        · simp only [hh, if_neg hr]
          rw [List.map_append, applyW_append,
            ← commitPage_eq_applyW sha1hex s p.fragments]
          exact ih (n + 1) (commitPage sha1hex s p.fragments)

/-- An ingested fragment's key is touched by the run's write sequence. -/
lemma lookupLast_map_isSome (sha1hex : Bytes → String) :
    ∀ (l : List Bytes) (f : Bytes), f ∈ l →
      (lookupLast (l.map (fun ev => (eventKey sha1hex ev, ev)))
        (eventKey sha1hex f)).isSome = true := by
  intro l
  induction l with
  | nil => intro f hf; simp at hf
  | cons a l ih =>
    intro f hf
    simp only [List.map_cons, lookupLast]
    cases hW : lookupLast (l.map (fun ev => (eventKey sha1hex ev, ev)))
        (eventKey sha1hex f) with
    | some v => simp
    | none =>
      rcases List.mem_cons.mp hf with hfa | hfl
      · subst hfa
        simp
      · have hsome := ih f hfl
        rw [hW] at hsome
        simp at hsome

/-- An injective digest yields an injective event key. -/
lemma eventKey_injective (sha1hex : Bytes → String)
    (hinj : Function.Injective sha1hex) :
    Function.Injective (eventKey sha1hex) := by
  intro a b h
  apply hinj
  have hd := congrArg String.data h
  simp only [eventKey] at hd
  rw [String.data_append, String.data_append] at hd
  exact String.ext (List.append_cancel_left hd)

/-- If no element of `l` has key `k`, the mapped write sequence leaves `k`
untouched. -/
lemma lookupLast_map_none (sha1hex : Bytes → String) :
    ∀ (l : List Bytes) (k : String), (∀ g ∈ l, eventKey sha1hex g ≠ k) →
      lookupLast (l.map (fun ev => (eventKey sha1hex ev, ev))) k = none := by
  intro l
  induction l with
  | nil => intro k _; rfl
  | cons a l ih =>
    intro k hk
    simp only [List.map_cons, lookupLast]
    rw [ih k (fun g hg => hk g (List.mem_cons_of_mem a hg))]
    rw [if_neg (hk a (List.mem_cons_self a l))]

/-- With an injective digest, the last write to an ingested fragment's key
is that very fragment. -/
lemma lookupLast_map_inj (sha1hex : Bytes → String)
    (hinj : Function.Injective sha1hex) :
    ∀ (l : List Bytes) (f : Bytes), f ∈ l →
      lookupLast (l.map (fun ev => (eventKey sha1hex ev, ev)))
        (eventKey sha1hex f) = some f := by
  intro l
  induction l with
  | nil => intro f hf; simp at hf
  | cons a l ih =>
    intro f hf
    simp only [List.map_cons, lookupLast]
    by_cases hfl : f ∈ l
    · rw [ih f hfl]
    · have hfa : f = a := by
        rcases List.mem_cons.mp hf with h | h
        · exact h
        · exact absurd h hfl
      subst hfa
      have hnone : lookupLast
          (l.map (fun ev => (eventKey sha1hex ev, ev)))
          (eventKey sha1hex f) = none := by
        apply lookupLast_map_none
        intro g hg hgk
        exact hfl (by
          rw [eventKey_injective sha1hex hinj hgk] at hg
          exact hg)
      rw [hnone]
      rw [if_pos rfl]

/-- The code `encBytes` is injective. -/
lemma encBytes_inj : Function.Injective encBytes := by
  intro l1
  induction l1 with
  | nil =>
    intro l2 h
    cases l2 with
    | nil => rfl
    | cons b r => simp [encBytes] at h
  | cons a r ih =>
    intro l2 h
    cases l2 with
    | nil => simp [encBytes] at h
    | cons b r2 =>
      simp only [encBytes, Nat.add_right_cancel_iff] at h
      have h2 := congrArg Nat.unpair h
      rw [Nat.unpair_pair, Nat.unpair_pair] at h2
      have hab : a = b := congrArg Prod.fst h2
      have hr : encBytes r = encBytes r2 := congrArg Prod.snd h2
      rw [hab, ih hr]

/-- The rendering `natStr` is injective. -/
lemma natStr_inj : Function.Injective natStr := by
  intro m n h
  have hd : List.replicate m 'a' = List.replicate n 'a' :=
    congrArg String.data h
  have hlen := congrArg List.length hd
  simpa using hlen

/-- The concrete hash `sha1W` is injective. -/
lemma sha1W_inj : Function.Injective sha1W :=
  fun _ _ h => encBytes_inj (natStr_inj h)

/-- C3: byte-identical fragments share one hash key, and since the LevelDB
store is a key/value map, they occupy exactly one record: the run's final
store is populated at every ingested fragment's key (and, whenever the
digest is injective, that record is the fragment itself).  Re-running the
ingester over the unchanged listing replays the identical write sequence,
leaving the store — in particular its set of keys — pointwise unchanged. -/
theorem c3_dedup_idempotent (sha1hex : Bytes → String)
    (listing : Nat → PageFetch) (fuel : Nat) (f1 f2 f : Bytes) (k : String) :
    (f1 = f2 → eventKey sha1hex f1 = eventKey sha1hex f2)
    ∧ (f ∈ ingested listing fuel 1 →
        (storeOf (runScript sha1hex listing fuel).1
          (eventKey sha1hex f)).isSome = true)
    ∧ (Function.Injective sha1hex → f ∈ ingested listing fuel 1 →
        storeOf (runScript sha1hex listing fuel).1 (eventKey sha1hex f)
          = some f)
    ∧ (storeOf (runAux sha1hex listing fuel 1
          (storeOf (runScript sha1hex listing fuel).1)).1 k
        = storeOf (runScript sha1hex listing fuel).1 k) := by
  refine ⟨fun h => by rw [h], ?_, ?_, ?_⟩
  · intro hf
    rw [show runScript sha1hex listing fuel
        = runAux sha1hex listing fuel 1 emptyStore from rfl]
    rw [storeOf_runAux]
    cases hW : lookupLast ((ingested listing fuel 1).map
        (fun ev => (eventKey sha1hex ev, ev))) (eventKey sha1hex f) with
    | some v => rw [applyW_lookupLast_some _ _ _ v hW]; rfl
    | none =>
      have := lookupLast_map_isSome sha1hex (ingested listing fuel 1) f hf
      rw [hW] at this
      simp at this
  · intro hinj hf
    rw [show runScript sha1hex listing fuel
        = runAux sha1hex listing fuel 1 emptyStore from rfl]
    rw [storeOf_runAux]
    exact applyW_lookupLast_some _ _ _ f
      (lookupLast_map_inj sha1hex hinj (ingested listing fuel 1) f hf)
  · rw [show runScript sha1hex listing fuel
        = runAux sha1hex listing fuel 1 emptyStore from rfl]
    rw [storeOf_runAux, storeOf_runAux]
    exact applyW_idem _ emptyStore k

/-- Witness for C3 at the 1-page listing `listingC3` (fragments
`[[1],[2],[1]]`, the halting clamped request re-commits them): applying the
theorem with the injective digest `sha1W` yields the shared key, the
populated record (`some [2]` under `[2]`'s key), and the unchanged store
after a re-run. -/
theorem c3_dedup_idempotent_witness :
    (eventKey sha1W [1] = eventKey sha1W [1])
    ∧ (storeOf (runScript sha1W listingC3 5).1
        (eventKey sha1W [1])).isSome = true
    ∧ storeOf (runScript sha1W listingC3 5).1 (eventKey sha1W [2])
        = some [2]
    ∧ storeOf (runAux sha1W listingC3 5 1
          (storeOf (runScript sha1W listingC3 5).1)).1 (eventKey sha1W [1])
        = storeOf (runScript sha1W listingC3 5).1 (eventKey sha1W [1]) :=
  ⟨(c3_dedup_idempotent sha1W listingC3 5 [1] [1] [1]
      (eventKey sha1W [1])).1 rfl,
   (c3_dedup_idempotent sha1W listingC3 5 [1] [1] [1]
      (eventKey sha1W [1])).2.1 (by decide),
   (c3_dedup_idempotent sha1W listingC3 5 [1] [1] [2]
      (eventKey sha1W [2])).2.2.1 sha1W_inj (by decide),
   (c3_dedup_idempotent sha1W listingC3 5 [1] [1] [1]
      (eventKey sha1W [1])).2.2.2⟩

/-- C4: for a fixed cache key, a call finding a persisted entry younger than
`TIMEOUT` returns its payload without invoking the wrapped function; a call
finding no entry (or a stale one) invokes the wrapped function, persists its
result under the key with the current time, and returns it.  Hence, starting
from no entry, a successful call at `t0` followed by a call at `t1` with
`t1 - t0 < TIMEOUT` returns the identical payload both times with exactly
one invocation of the wrapped function in total. -/
theorem c4_cache_ttl (α : Type) (key : String) (f : Unit → Except PyErr α)
    (st : CacheMap α) (t0 t1 : Nat) (p : α) (m : Nat) (r : α) :
    (st key = some (p, m) → (t0 : Int) - (m : Int) < TIMEOUT →
      cached_function key t0 f st = (Except.ok p, st, 0))
    ∧ (st key = none → f () = Except.ok r →
      cached_function key t0 f st
        = (Except.ok r, updateCache st key (r, t0), 1))
    ∧ (st key = some (p, m) → TIMEOUT ≤ (t0 : Int) - (m : Int) →
      f () = Except.ok r →
      cached_function key t0 f st
        = (Except.ok r, updateCache st key (r, t0), 1))
    ∧ (st key = none → f () = Except.ok r →
      (t1 : Int) - (t0 : Int) < TIMEOUT →
      (cached_function key t0 f st).1 = Except.ok r
      ∧ (cached_function key t0 f st).2.2 = 1
      ∧ cached_function key t1 f (cached_function key t0 f st).2.1
          = (Except.ok r, (cached_function key t0 f st).2.1, 0)) := by
  refine ⟨?_, ?_, ?_, ?_⟩
  · intro h1 h2
    simp only [cached_function, h1, if_pos h2]
  · intro h1 h2
    simp only [cached_function, h1, freshCall, h2]
  · intro h1 h2 h3
    simp only [cached_function, h1, if_neg (not_lt.mpr h2), freshCall, h3]
  · intro h1 h2 h3
    have hc1 : cached_function key t0 f st
        = (Except.ok r, updateCache st key (r, t0), 1) := by
      simp only [cached_function, h1, freshCall, h2]
    rw [hc1]
    refine ⟨rfl, rfl, ?_⟩
    have hlook : updateCache st key (r, t0) key = some (r, t0) := by
      simp [updateCache]
    simp only [cached_function, hlook, if_pos h3]

/-- Witness for C4 with `Nat` payloads: a warm-cache hit at time 5 returns
the stored payload without invoking; a cold call at time 7 invokes, stores
and returns; a cold call at time 7 followed by a call at time 9 yields one
invocation in total and the identical payload. -/
theorem c4_cache_ttl_witness :
    cached_function "k" 5 (fun _ => Except.ok 5) cacheHitNat
      = (Except.ok 9, cacheHitNat, 0)
    ∧ cached_function "k" 7 (fun _ => Except.ok 5) emptyCacheNat
      = (Except.ok 5, updateCache emptyCacheNat "k" (5, 7), 1)
    ∧ ((cached_function "k" 7 (fun _ => Except.ok 5) emptyCacheNat).1
        = Except.ok 5
      ∧ (cached_function "k" 7 (fun _ => Except.ok 5) emptyCacheNat).2.2 = 1
      ∧ cached_function "k" 9 (fun _ => Except.ok 5)
          (cached_function "k" 7 (fun _ => Except.ok 5) emptyCacheNat).2.1
        = (Except.ok 5,
           (cached_function "k" 7 (fun _ => Except.ok 5) emptyCacheNat).2.1,
           0)) :=
  ⟨(c4_cache_ttl Nat "k" (fun _ => Except.ok 5) cacheHitNat 5 9 9 3 5).1
      rfl (by decide),
   (c4_cache_ttl Nat "k" (fun _ => Except.ok 5) emptyCacheNat 7 9 9 3 5).2.1
      rfl rfl,
   (c4_cache_ttl Nat "k" (fun _ => Except.ok 5) emptyCacheNat 7 9 9 3 5).2.2.2
      rfl rfl (by decide)⟩

/-- C6: when the wrapped function raises on a cold (or stale) call, the
cache performs no write — the cache state is returned untouched, a stale
prior entry included — and the call propagates the error; a subsequent cold
call therefore re-invokes the wrapped function afresh. -/
theorem c6_failure_not_cached (α : Type) (key : String)
    (f g : Unit → Except PyErr α) (st : CacheMap α) (t0 t1 : Nat)
    (e : PyErr) (p : α) (m : Nat) (r : α) :
    (st key = none → f () = Except.error e →
      cached_function key t0 f st = (Except.error e, st, 1))
    ∧ (st key = some (p, m) → TIMEOUT ≤ (t0 : Int) - (m : Int) →
      f () = Except.error e →
      cached_function key t0 f st = (Except.error e, st, 1))
    ∧ (st key = none → f () = Except.error e → g () = Except.ok r →
      cached_function key t1 g (cached_function key t0 f st).2.1
        = (Except.ok r, updateCache st key (r, t1), 1)) := by
  refine ⟨?_, ?_, ?_⟩
  · intro h1 h2
    simp only [cached_function, h1, freshCall, h2]
  · intro h1 h2 h3
    simp only [cached_function, h1, if_neg (not_lt.mpr h2), freshCall, h3]
  · intro h1 h2 h3
    have hc1 : cached_function key t0 f st = (Except.error e, st, 1) := by
      simp only [cached_function, h1, freshCall, h2]
    rw [hc1]
    simp only [cached_function, h1, freshCall, h3]

/-- Witness for C6 with `Nat` payloads: a failing cold call at time 7
returns the error with the cache untouched; a failing call over a stale
entry leaves that entry in place; the follow-up call re-invokes and
succeeds. -/
theorem c6_failure_not_cached_witness :
    cached_function "k" 7 (fun _ => Except.error (PyErr.valueError "boom"))
        emptyCacheNat
      = (Except.error (PyErr.valueError "boom"), emptyCacheNat, 1)
    ∧ cached_function "k" 99999
        (fun _ => Except.error (PyErr.valueError "boom")) cacheHitNat
      = (Except.error (PyErr.valueError "boom"), cacheHitNat, 1)
    ∧ cached_function "k" 9 (fun _ => Except.ok 5)
        (cached_function "k" 7
          (fun _ => Except.error (PyErr.valueError "boom"))
          emptyCacheNat).2.1
      = (Except.ok 5, updateCache emptyCacheNat "k" (5, 9), 1) :=
  ⟨(c6_failure_not_cached Nat "k"
      (fun _ => Except.error (PyErr.valueError "boom"))
      (fun _ => Except.ok 5) emptyCacheNat 7 9 (PyErr.valueError "boom")
      9 3 5).1 rfl rfl,
   (c6_failure_not_cached Nat "k"
      (fun _ => Except.error (PyErr.valueError "boom"))
      (fun _ => Except.ok 5) cacheHitNat 99999 9 (PyErr.valueError "boom")
      9 3 5).2.1 rfl (by decide) rfl,
   (c6_failure_not_cached Nat "k"
      (fun _ => Except.error (PyErr.valueError "boom"))
      (fun _ => Except.ok 5) emptyCacheNat 7 9 (PyErr.valueError "boom")
      9 3 5).2.2 rfl rfl rfl⟩
